import Mathlib

/-!
Shallow embedding of the AWS Blogs MCP server
(`awslabs/aws_blogs_mcp_server/server.py`, `utils.py`, `models.py`).

Modelling conventions:
* Python strings are Lean `String`s; character-level processing (lowercasing,
  substring search, slicing) works on `List Char` via `String.data`.
  `str.lower()` is modelled by `Char.toLower` per character (ASCII range,
  which covers the feeds' content relevant here).
* `datetime` values are encoded as `Nat` (e.g. seconds since some epoch),
  with `datetime.min` as `0`; an absent date is `Option.none`.
* Network fetching plus feed parsing (`httpx.get` + `feedparser.parse`)
  is a parameter `fetch : String → Except Unit (List FeedEntry)`:
  `Except.error ()` stands for any exception raised while fetching or
  parsing a feed URL.
* Python's `try/except` blocks that log and return a default are modelled
  by matching on the `Except` value and returning that default.
* Python `//` on nonnegative ints is `Nat` division; list slicing
  `l[:n]` is `List.take n`.
-/

namespace AwsBlogs

/-- Python `needle in hay` for strings: contiguous substring test.
`"" in s` is `True` in Python, matched by `List.isPrefixOf [] _ = true`. -/
def containsSub (needle : List Char) : List Char → Bool
  | [] => needle.isPrefixOf []
  | c :: rest => needle.isPrefixOf (c :: rest) || containsSub needle rest

/-- `s.lower()` as a character list (ASCII lowercasing). -/
def lowerChars (s : String) : List Char := s.data.map Char.toLower

/-- One parsed RSS feed entry, as produced by `feedparser`:
`entry.get('title','')`, `entry.get('summary','')`, `entry.get('link','')`,
`entry.get('author','')`, and the optional `published_parsed` timestamp. -/
structure FeedEntry where
  title : String
  summary : String
  link : String
  author : String
  published : Option Nat
deriving DecidableEq

/-- `models.SearchResult` (the fields `server.py` populates). -/
structure SearchResult where
  title : String
  url : String
  summary : String
  published_date : Option Nat
  relevance_score : Option Nat
deriving DecidableEq

/-- `models.BlogPost` (the fields `server.py` populates). -/
structure BlogPost where
  title : String
  url : String
  summary : String
  author : String
  published_date : Option Nat
  category : Option String
deriving DecidableEq

/-- One entry of the `AWS_BLOG_CATEGORIES` registry in `utils.py`. -/
structure CategoryInfo where
  slug : String
  name : String
  url : String
  rss : String
deriving DecidableEq

/-- `utils.AWS_BLOG_CATEGORIES`, in declaration order (Python dicts preserve
insertion order). -/
def AWS_BLOG_CATEGORIES : List CategoryInfo :=
  [⟨"aws", "AWS News Blog",
     "https://aws.amazon.com/blogs/aws/",
     "https://aws.amazon.com/blogs/aws/feed/"⟩,
   ⟨"architecture", "AWS Architecture Blog",
     "https://aws.amazon.com/blogs/architecture/",
     "https://aws.amazon.com/blogs/architecture/feed/"⟩,
   ⟨"compute", "AWS Compute Blog",
     "https://aws.amazon.com/blogs/compute/",
     "https://aws.amazon.com/blogs/compute/feed/"⟩,
   ⟨"containers", "Containers",
     "https://aws.amazon.com/blogs/containers/",
     "https://aws.amazon.com/blogs/containers/feed/"⟩,
   ⟨"database", "Database",
     "https://aws.amazon.com/blogs/database/",
     "https://aws.amazon.com/blogs/database/feed/"⟩,
   ⟨"developer", "AWS Developer Tools Blog",
     "https://aws.amazon.com/blogs/developer/",
     "https://aws.amazon.com/blogs/developer/feed/"⟩,
   ⟨"devops", "AWS DevOps Blog",
     "https://aws.amazon.com/blogs/devops/",
     "https://aws.amazon.com/blogs/devops/feed/"⟩,
   ⟨"machine-learning", "AWS Machine Learning Blog",
     "https://aws.amazon.com/blogs/machine-learning/",
     "https://aws.amazon.com/blogs/machine-learning/feed/"⟩,
   ⟨"networking-and-content-delivery", "Networking & Content Delivery",
     "https://aws.amazon.com/blogs/networking-and-content-delivery/",
     "https://aws.amazon.com/blogs/networking-and-content-delivery/feed/"⟩,
   ⟨"security", "AWS Security Blog",
     "https://aws.amazon.com/blogs/security/",
     "https://aws.amazon.com/blogs/security/feed/"⟩,
   ⟨"storage", "AWS Storage Blog",
     "https://aws.amazon.com/blogs/storage/",
     "https://aws.amazon.com/blogs/storage/feed/"⟩]

/-- `list(AWS_BLOG_CATEGORIES.keys())`. -/
def categoryKeys : List String := AWS_BLOG_CATEGORIES.map (·.slug)

/-- Dictionary lookup `AWS_BLOG_CATEGORIES[c]`; `isSome` is the Python
membership test `c in AWS_BLOG_CATEGORIES`. -/
def findCategory (c : String) : Option CategoryInfo :=
  AWS_BLOG_CATEGORIES.find? (·.slug == c)

/-- The fetching-plus-feed-parsing environment (see module header). -/
def Fetch : Type := String → Except Unit (List FeedEntry)

/-- The relevance scoring of `_search_rss_feed` (server.py lines 411-416):
`+2` if the lowercased query occurs in the lowercased title, `+1` if it
occurs in the lowercased summary. `ql` is the already-lowercased query. -/
def scoreEntry (ql : List Char) (e : FeedEntry) : Nat :=
  (if containsSub ql (lowerChars e.title) then 2 else 0) +
  (if containsSub ql (lowerChars e.summary) then 1 else 0)

/-- Construction of the `SearchResult` in `_search_rss_feed`
(server.py lines 423-429). -/
def entryToResult (e : FeedEntry) (sc : Nat) : SearchResult :=
  ⟨e.title, e.link, e.summary, e.published, some sc⟩

/-- The pure core of `_search_rss_feed` (server.py lines 403-432), applied to
the parsed entries: scan the first `limit * 2` entries, keep the
positively-scored ones (in feed order), truncate to `limit`. -/
def searchEntries (entries : List FeedEntry) (query : String) (limit : Nat) :
    List SearchResult :=
  let ql := lowerChars query
  ((entries.take (limit * 2)).filterMap fun e =>
    let sc := scoreEntry ql e
    if 0 < sc then some (entryToResult e sc) else none).take limit

/-- `_search_rss_feed` (server.py lines 396-436): on any fetch/parse failure
the internal `except` returns `[]`. -/
def searchRssFeed (fetch : Fetch) (rssUrl : String) (query : String)
    (limit : Nat) : List SearchResult :=
  match fetch rssUrl with
  | .error _ => []
  | .ok entries => searchEntries entries query limit

/-- Stable insertion (descending by `k`): `x` goes before the first element
whose key is `≤ k x`. Together with `sortKeyDesc` this models Python's
stable `sorted(..., key=k, reverse=True)`: ties keep their original order. -/
def insertKeyDesc (k : α → Nat) (x : α) : List α → List α
  | [] => [x]
  | y :: ys => if k y ≤ k x then x :: y :: ys else y :: insertKeyDesc k x ys

/-- Stable sort, descending by key `k`: Python `sorted(l, key=k, reverse=True)`
(ties keep original order; a stable sort is unique, so insertion sort is a
faithful model of CPython's stable sort). -/
def sortKeyDesc (k : α → Nat) : List α → List α
  | [] => []
  | x :: xs => insertKeyDesc k x (sortKeyDesc k xs)

/-- The sort key `lambda x: x.relevance_score or 0` (server.py line 251):
`None` and `0` both map to `0`. -/
def relevanceKey (r : SearchResult) : Nat := r.relevance_score.getD 0

/-- `categories_to_desearch` in the reachable else-branch of `search_blog_posts`
(server.py line 239): the full key list (the `[category]` alternative is
unreachable, a known category is handled by the first branch). -/
def searchCategoriesToSearch : List String := categoryKeys

/-- The per-category limit `limit // len(categories_to_search) + 1` passed to
`_search_rss_feed` in the fan-out of `search_blog_posts` (server.py line 244). -/
def searchPerCategoryLimit (limit : Nat) : Nat :=
  limit / searchCategoriesToSearch.length + 1

/-- The `(category, per-category limit)` queries issued by the fan-out loop of
`search_blog_posts` (server.py lines 241-248): the first 5 registry keys. -/
def searchFanoutQueries (limit : Nat) : List (String × Nat) :=
  (searchCategoriesToSearch.take 5).map fun c => (c, searchPerCategoryLimit limit)

/-- One iteration of the fan-out loop of `search_blog_posts` (server.py
lines 242-245): look up the category's rss URL and search it with the
per-category limit. The inner `except` skips a failing category
(`searchRssFeed` already returns `[]` on fetch failure). -/
def searchCategoryQuery (fetch : Fetch) (query : String) (cq : String × Nat) :
    List SearchResult :=
  match findCategory cq.1 with
  | some info => searchRssFeed fetch info.rss query cq.2
  | none => []

/-- The fan-out branch of `search_blog_posts` (server.py lines 237-248):
results of the issued queries, concatenated in registry order. -/
def searchFanout (fetch : Fetch) (query : String) (limit : Nat) :
    List SearchResult :=
  ((searchFanoutQueries limit).map (searchCategoryQuery fetch query)).flatten

/-- `search_blog_posts` (server.py lines 183-257). The Python guard
`if category and category in AWS_BLOG_CATEGORIES` is `category.bind
findCategory`: `None` and `""` are falsy (and `""` is not a registry key),
an unknown category also lands in the fan-out branch. The final line sorts
all collected results by relevance (descending, stable) and truncates to
`limit`. -/
def searchBlogPosts (fetch : Fetch) (query : String) (category : Option String)
    (limit : Nat) : List SearchResult :=
  (sortKeyDesc relevanceKey
    (match category.bind findCategory with
     | some info => searchRssFeed fetch info.rss query limit
     | none => searchFanout fetch query limit)).take limit

/-- The category-name lookup in `_get_posts_from_rss` (server.py lines
454-459): first registry entry whose rss URL equals the fetched URL. -/
def categoryNameForRss (rssUrl : String) : Option String :=
  (AWS_BLOG_CATEGORIES.find? (·.rss == rssUrl)).map (·.name)

/-- The pure core of `_get_posts_from_rss` (server.py lines 446-471):
the first `limit` entries, each turned into a `BlogPost`. -/
def postsFromEntries (rssUrl : String) (entries : List FeedEntry)
    (limit : Nat) : List BlogPost :=
  (entries.take limit).map fun e =>
    ⟨e.title, e.link, e.summary, e.author, e.published, categoryNameForRss rssUrl⟩

/-- `_get_posts_from_rss` (server.py lines 439-475): `[]` on fetch failure. -/
def getPostsFromRss (fetch : Fetch) (rssUrl : String) (limit : Nat) :
    List BlogPost :=
  match fetch rssUrl with
  | .error _ => []
  | .ok entries => postsFromEntries rssUrl entries limit

/-- The sort key `lambda x: x.published_date or datetime.min` (server.py
line 343), with `datetime.min` encoded as `0`. -/
def publishedKey (p : BlogPost) : Nat := p.published_date.getD 0

/-- The `(category, per-category limit)` queries issued by the fan-out loop of
`get_recent_posts` (server.py lines 333-340): first 5 registry entries, each
with limit `limit // 5 + 1`. -/
def recentFanoutQueries (limit : Nat) : List (String × Nat) :=
  (AWS_BLOG_CATEGORIES.take 5).map fun info => (info.slug, limit / 5 + 1)

/-- One iteration of the fan-out loop of `get_recent_posts` (server.py
lines 334-337). -/
def recentCategoryQuery (fetch : Fetch) (cq : String × Nat) : List BlogPost :=
  match findCategory cq.1 with
  | some info => getPostsFromRss fetch info.rss cq.2
  | none => []

/-- The fan-out branch of `get_recent_posts` (server.py lines 331-340). -/
def recentFanout (fetch : Fetch) (limit : Nat) : List BlogPost :=
  ((recentFanoutQueries limit).map (recentCategoryQuery fetch)).flatten

/-- `get_recent_posts` (server.py lines 292-349): specific category (the
guard `if category and category in AWS_BLOG_CATEGORIES` is `category.bind
findCategory`) or fan-out, then stable sort by published date descending
(absent dates keyed as `datetime.min`), truncated to `limit`. -/
def getRecentPosts (fetch : Fetch) (category : Option String) (limit : Nat) :
    List BlogPost :=
  (sortKeyDesc publishedKey
    (match category.bind findCategory with
     | some info => getPostsFromRss fetch info.rss limit
     | none => recentFanout fetch limit)).take limit

/-- The `ValueError` message raised by `get_rss_feed` for an unknown
category (server.py line 380). -/
def unknownCategoryMessage (c : String) : String :=
  "Unknown category: " ++ c ++ ". Use list_blog_categories to see available options."

/-- The body of the `try` block of `get_rss_feed` (server.py lines 378-387):
an unknown category raises `ValueError`, a known one fetches its feed. -/
def getRssFeedE (fetch : Fetch) (category : String) (limit : Nat) :
    Except String (List BlogPost) :=
  match findCategory category with
  | none => .error (unknownCategoryMessage category)
  | some info => .ok (getPostsFromRss fetch info.rss limit)

/-- `get_rss_feed` (server.py lines 352-391): the surrounding `except`
catches the `ValueError`, logs it, and returns `[]`. -/
def getRssFeed (fetch : Fetch) (category : String) (limit : Nat) :
    List BlogPost :=
  match getRssFeedE fetch category limit with
  | .error _ => []
  | .ok posts => posts

/-! ### Pagination in `read_blog_post` (server.py lines 153-175) -/

/-- The reply when `start_index >= len(full_content)` (server.py line 167). -/
def noMoreContent : List Char := "No more content available.".data

/-- The constant part of the continuation notice before the offset. -/
def markerPre : List Char := "\n\n[Content truncated. Use start_index=".data

/-- The constant part of the continuation notice after the offset. -/
def markerPost : List Char := " to continue reading.]".data

/-- The continuation notice appended at server.py line 173, literally
containing the decimal next `start_index`. -/
def markerOf (n : Nat) : List Char := markerPre ++ (Nat.repr n).data ++ markerPost

/-- The pagination step of `read_blog_post` (server.py lines 165-175), applied
to the assembled `full_content`: Python slice `full_content[start:start+max]`
is `(full.drop start).take maxLength`; the continuation notice is appended
exactly when `end_index < len(full_content)`. -/
def paginate (full : List Char) (maxLength startIndex : Nat) : List Char :=
  if full.length ≤ startIndex then noMoreContent
  else
    let res := (full.drop startIndex).take maxLength
    if startIndex + maxLength < full.length then
      res ++ markerOf (startIndex + maxLength)
    else res

/-- Fuel-driven splitting of a text into consecutive windows of `maxLength`
characters: the chunk bodies produced by paginating at offsets
`0, maxLength, 2*maxLength, ...` — exactly the offsets a caller obtains by
starting at `0` and following each continuation notice's embedded
`start_index`. `text.length` fuel suffices when `0 < maxLength`. -/
def chunkBodiesAux (maxLength : Nat) : Nat → List Char → List (List Char)
  | 0, _ => []
  | _ + 1, [] => []
  | fuel + 1, c :: rest =>
    (c :: rest).take maxLength :: chunkBodiesAux maxLength fuel ((c :: rest).drop maxLength)

/-- The chunk bodies of a full pagination pass over `text`. -/
def chunkBodies (maxLength : Nat) (text : List Char) : List (List Char) :=
  chunkBodiesAux maxLength text.length text

/-! ### The metadata header of `read_blog_post` (server.py lines 153-163) -/

/-- The extracted metadata that `read_blog_post` consumes
(`extract_blog_metadata` in utils.py): each field is present iff the
corresponding dict key is set. `published_date` is kept in rendered form.
Python's truthiness test `if metadata.get(k):` is `truthy` below. -/
structure BlogMetadata where
  title : Option String
  author : Option String
  published_date : Option String
  category : Option String

/-- Python truthiness of `metadata.get(k)` for an optional string field:
false for an absent key and for an empty value. (An extracted
`published_date` of `None` behaves like an absent key under this test, so it
is modelled as `none` too.) -/
def truthy : Option String → Bool
  | some s => !s.isEmpty
  | none => false

/-- The `**URL:**` line and separator always appended at server.py line 161. -/
def urlBlock (url : String) : List Char :=
  "**URL:** ".data ++ url.data ++ "\n\n---\n\n".data

/-- The first header line `f"# {metadata.get('title', 'AWS Blog Post')}\n\n"`
(server.py line 154). -/
def titleLine (meta : BlogMetadata) : List Char :=
  "# ".data ++ (meta.title.getD "AWS Blog Post").data ++ "\n\n".data

/-- The conditional author/published/category lines (server.py lines
155-160). -/
def optionalHeaderLines (meta : BlogMetadata) : List Char :=
  (if truthy meta.author then
    "**Author:** ".data ++ (meta.author.getD "").data ++ "\n".data else []) ++
  (if truthy meta.published_date then
    "**Published:** ".data ++ (meta.published_date.getD "").data ++ "\n".data else []) ++
  (if truthy meta.category then
    "**Category:** ".data ++ (meta.category.getD "").data ++ "\n".data else [])

/-- `metadata_header` as assembled at server.py lines 154-161: the title
line, then the conditional author/published/category lines, then the URL
line and `---` separator. -/
def metadataHeader (meta : BlogMetadata) (url : String) : List Char :=
  titleLine meta ++ optionalHeaderLines meta ++ urlBlock url

/-- `full_content = metadata_header + markdown_content` (server.py line 163). -/
def fullContent (meta : BlogMetadata) (url : String) (markdown : List Char) :
    List Char :=
  metadataHeader meta url ++ markdown

/-! ### `utils.parse_date_string` (utils.py lines 192-214)

The function tries `datetime.strptime(date_str.strip(), fmt)` for a fixed
list of seven formats and returns `None` if all fail. `strptime` is modelled
below: each directive consumes input following the regular expression CPython's
`_strptime.TimeRE` uses for it (ordered alternation, e.g. `%m` is
`1[0-2]|0[1-9]|[1-9]`), literal characters match themselves, whitespace in
the format matches a run of whitespace, a full match is required
(`unconverted data remains` otherwise), and the resulting field values must
form a valid `datetime` (`ValueError` otherwise — caught by the caller's
loop, hence `none`). -/

/-- A Python `datetime` as produced by `strptime` (tz offset in minutes for
`%z`, `none` for a naive datetime). -/
structure PyDateTime where
  year : Nat
  month : Nat
  day : Nat
  hour : Nat
  minute : Nat
  second : Nat
  tzOffMinutes : Option Int
deriving DecidableEq

/-- Decimal value of a digit character. -/
def digitVal (c : Char) : Nat := c.toNat - 48

/-- Exactly `n` digits, accumulating their value (CPython `%Y` is `\d{4}`). -/
def matchDigitsExact : Nat → Nat → List Char → Option (Nat × List Char)
  | 0, acc, s => some (acc, s)
  | n + 1, acc, c :: s =>
    if c.isDigit then matchDigitsExact n (acc * 10 + digitVal c) s else none
  | _ + 1, _, [] => none

/-- `%m`: `1[0-2]|0[1-9]|[1-9]` (ordered alternation). -/
def matchMonthNum : List Char → Option (Nat × List Char)
  | '1' :: c :: s =>
    if '0' ≤ c ∧ c ≤ '2' then some (10 + digitVal c, s) else some (1, c :: s)
  | '0' :: c :: s =>
    if '1' ≤ c ∧ c ≤ '9' then some (digitVal c, s) else none
  | c :: s => if '1' ≤ c ∧ c ≤ '9' then some (digitVal c, s) else none
  | [] => none

/-- `%d`: `3[01]|[12]\d|0[1-9]|[1-9]`. -/
def matchDayNum : List Char → Option (Nat × List Char)
  | '3' :: c :: s =>
    if c = '0' ∨ c = '1' then some (30 + digitVal c, s) else some (3, c :: s)
  | c₁ :: c₂ :: s =>
    if ('1' ≤ c₁ ∧ c₁ ≤ '2') ∧ c₂.isDigit then
      some (digitVal c₁ * 10 + digitVal c₂, s)
    else if c₁ = '0' ∧ ('1' ≤ c₂ ∧ c₂ ≤ '9') then some (digitVal c₂, s)
    else if '1' ≤ c₁ ∧ c₁ ≤ '9' then some (digitVal c₁, c₂ :: s)
    else none
  | [c] => if '1' ≤ c ∧ c ≤ '9' then some (digitVal c, []) else none
  | [] => none

/-- `%H`: `2[0-3]|[0-1]\d|\d`. -/
def matchHourNum : List Char → Option (Nat × List Char)
  | '2' :: c :: s =>
    if '0' ≤ c ∧ c ≤ '3' then some (20 + digitVal c, s) else some (2, c :: s)
  | c₁ :: c₂ :: s =>
    if (c₁ = '0' ∨ c₁ = '1') ∧ c₂.isDigit then
      some (digitVal c₁ * 10 + digitVal c₂, s)
    else if c₁.isDigit then some (digitVal c₁, c₂ :: s)
    else none
  | [c] => if c.isDigit then some (digitVal c, []) else none
  | [] => none

/-- `%M`: `[0-5]\d|\d`. -/
def matchMinuteNum : List Char → Option (Nat × List Char)
  | c₁ :: c₂ :: s =>
    if ('0' ≤ c₁ ∧ c₁ ≤ '5') ∧ c₂.isDigit then
      some (digitVal c₁ * 10 + digitVal c₂, s)
    else if c₁.isDigit then some (digitVal c₁, c₂ :: s)
    else none
  | [c] => if c.isDigit then some (digitVal c, []) else none
  | [] => none

/-- `%S`: `6[0-1]|[0-5]\d|\d`. -/
def matchSecondNum : List Char → Option (Nat × List Char)
  | '6' :: c :: s =>
    if c = '0' ∨ c = '1' then some (60 + digitVal c, s) else some (6, c :: s)
  | c₁ :: c₂ :: s =>
    if ('0' ≤ c₁ ∧ c₁ ≤ '5') ∧ c₂.isDigit then
      some (digitVal c₁ * 10 + digitVal c₂, s)
    else if c₁.isDigit then some (digitVal c₁, c₂ :: s)
    else none
  | [c] => if c.isDigit then some (digitVal c, []) else none
  | [] => none

/-- The optional seconds tail of `%z` after the minutes: `(:?[0-5]\d)?`
(fractional seconds omitted — not exercised by any input considered here;
a leftover tail simply fails the overall match, as with the regex). -/
def matchTzTail : List Char → List Char
  | ':' :: c₁ :: c₂ :: s =>
    if ('0' ≤ c₁ ∧ c₁ ≤ '5') ∧ c₂.isDigit then s else ':' :: c₁ :: c₂ :: s
  | c₁ :: c₂ :: s =>
    if ('0' ≤ c₁ ∧ c₁ ≤ '5') ∧ c₂.isDigit then s else c₁ :: c₂ :: s
  | s => s

/-- `%z`: `[+-]\d\d:?[0-5]\d(:?[0-5]\d(\.\d{1,6})?)?|Z`, yielding the UTC
offset in minutes. -/
def matchTzOff : List Char → Option (Int × List Char)
  | 'Z' :: s => some (0, s)
  | sign :: h₁ :: h₂ :: rest =>
    if (sign = '+' ∨ sign = '-') ∧ h₁.isDigit ∧ h₂.isDigit then
      let hh : Int := (digitVal h₁ * 10 + digitVal h₂ : Nat)
      let afterColon := match rest with
        | ':' :: r => r
        | r => r
      match afterColon with
      | m₁ :: m₂ :: r =>
        if ('0' ≤ m₁ ∧ m₁ ≤ '5') ∧ m₂.isDigit then
          let mm : Int := (digitVal m₁ * 10 + digitVal m₂ : Nat)
          let total := hh * 60 + mm
          some (if sign = '-' then -total else total, matchTzTail r)
        else none
      | _ => none
    else none
  | _ => none

/-- English month names for `%B` (C locale), with their numbers. -/
def monthFullNames : List (String × Nat) :=
  [("January", 1), ("February", 2), ("March", 3), ("April", 4), ("May", 5),
   ("June", 6), ("July", 7), ("August", 8), ("September", 9), ("October", 10),
   ("November", 11), ("December", 12)]

/-- English month abbreviations for `%b` (C locale). -/
def monthAbbrevNames : List (String × Nat) :=
  [("Jan", 1), ("Feb", 2), ("Mar", 3), ("Apr", 4), ("May", 5), ("Jun", 6),
   ("Jul", 7), ("Aug", 8), ("Sep", 9), ("Oct", 10), ("Nov", 11), ("Dec", 12)]

/-- Case-insensitive match of one of the given names at the head of the
input (the name lists are mutually prefix-free, so ordered search agrees
with the regex alternation CPython builds). -/
def matchNameCI : List (String × Nat) → List Char → Option (Nat × List Char)
  | [], _ => none
  | (nm, v) :: rest, s =>
    let nl := nm.data.map Char.toLower
    if nl.isPrefixOf (s.map Char.toLower) then some (v, s.drop nl.length)
    else matchNameCI rest s

/-- One token of a `strptime` format string. -/
inductive FmtTok where
  | lit (c : Char)
  | space
  | dY | dm | dd | dH | dM | dS | dz | dB | db
deriving DecidableEq

/-- The field values accumulated while matching a format (CPython defaults:
year 1900, month 1, day 1, time 00:00:00, no tz). -/
structure StpAcc where
  year : Nat := 1900
  month : Nat := 1
  day : Nat := 1
  hour : Nat := 0
  minute : Nat := 0
  second : Nat := 0
  tzOffMinutes : Option Int := none

/-- Run a tokenized format against the input; the whole input must be
consumed (otherwise CPython raises `unconverted data remains`). -/
def runFmt : List FmtTok → List Char → StpAcc → Option StpAcc
  | [], [], acc => some acc
  | [], _ :: _, _ => none
  | .lit c :: toks, s, acc =>
    match s with
    | c' :: r => if c' = c then runFmt toks r acc else none
    | [] => none
  | .space :: toks, s, acc =>
    match s with
    | c' :: r =>
      if c'.isWhitespace then runFmt toks (r.dropWhile Char.isWhitespace) acc
      else none
    | [] => none
  | .dY :: toks, s, acc =>
    match matchDigitsExact 4 0 s with
    | some (v, r) => runFmt toks r { acc with year := v }
    | none => none
  | .dm :: toks, s, acc =>
    match matchMonthNum s with
    | some (v, r) => runFmt toks r { acc with month := v }
    | none => none
  | .dd :: toks, s, acc =>
    match matchDayNum s with
    | some (v, r) => runFmt toks r { acc with day := v }
    | none => none
  | .dH :: toks, s, acc =>
    match matchHourNum s with
    | some (v, r) => runFmt toks r { acc with hour := v }
    | none => none
  | .dM :: toks, s, acc =>
    match matchMinuteNum s with
    | some (v, r) => runFmt toks r { acc with minute := v }
    | none => none
  | .dS :: toks, s, acc =>
    match matchSecondNum s with
    | some (v, r) => runFmt toks r { acc with second := v }
    | none => none
  | .dz :: toks, s, acc =>
    match matchTzOff s with
    | some (v, r) => runFmt toks r { acc with tzOffMinutes := some v }
    | none => none
  | .dB :: toks, s, acc =>
    match matchNameCI monthFullNames s with
    | some (v, r) => runFmt toks r { acc with month := v }
    | none => none
  | .db :: toks, s, acc =>
    match matchNameCI monthAbbrevNames s with
    | some (v, r) => runFmt toks r { acc with month := v }
    | none => none

/-- Days in a month (Gregorian, with leap years), for `datetime` validation. -/
def daysInMonth (year month : Nat) : Nat :=
  if month = 2 then
    if year % 4 = 0 ∧ (year % 100 ≠ 0 ∨ year % 400 = 0) then 29 else 28
  else if month = 4 ∨ month = 6 ∨ month = 9 ∨ month = 11 then 30
  else 31

/-- The `datetime(...)` constructor's validation: out-of-range fields raise
`ValueError` (caught by `parse_date_string`'s loop). -/
def validAcc (a : StpAcc) : Bool :=
  1 ≤ a.year && a.year ≤ 9999 &&
  1 ≤ a.month && a.month ≤ 12 &&
  1 ≤ a.day && a.day ≤ daysInMonth a.year a.month &&
  a.hour ≤ 23 && a.minute ≤ 59 && a.second ≤ 59

/-- `datetime.strptime(s, fmt)`, returning `none` where CPython raises
`ValueError`. -/
def strptime (fmt : List FmtTok) (s : List Char) : Option PyDateTime :=
  match runFmt fmt s {} with
  | some a =>
    if validAcc a then
      some ⟨a.year, a.month, a.day, a.hour, a.minute, a.second, a.tzOffMinutes⟩
    else none
  | none => none

/-- `'%Y-%m-%dT%H:%M:%S%z'`. -/
def fmtIsoTz : List FmtTok :=
  [.dY, .lit '-', .dm, .lit '-', .dd, .lit 'T', .dH, .lit ':', .dM,
   .lit ':', .dS, .dz]

/-- `'%Y-%m-%d %H:%M:%S'`. -/
def fmtYmdHms : List FmtTok :=
  [.dY, .lit '-', .dm, .lit '-', .dd, .space, .dH, .lit ':', .dM, .lit ':', .dS]

/-- `'%Y-%m-%d'`. -/
def fmtYmd : List FmtTok := [.dY, .lit '-', .dm, .lit '-', .dd]

/-- `'%B %d, %Y'`. -/
def fmtBdY : List FmtTok := [.dB, .space, .dd, .lit ',', .space, .dY]

/-- `'%b %d, %Y'`. -/
def fmtbdY : List FmtTok := [.db, .space, .dd, .lit ',', .space, .dY]

/-- `'%d %B %Y'`. -/
def fmtdBY : List FmtTok := [.dd, .space, .dB, .space, .dY]

/-- `'%d %b %Y'`. -/
def fmtdbY : List FmtTok := [.dd, .space, .db, .space, .dY]

/-- The format list of `parse_date_string` (utils.py lines 198-206), in order. -/
def pyDateFormats : List (List FmtTok) :=
  [fmtIsoTz, fmtYmdHms, fmtYmd, fmtBdY, fmtbdY, fmtdBY, fmtdbY]

/-- Python `str.strip()`: remove leading and trailing whitespace. -/
def pyStrip (s : List Char) : List Char :=
  ((s.dropWhile Char.isWhitespace).reverse.dropWhile Char.isWhitespace).reverse

/-- The `for fmt in formats: try ... except ValueError: continue` loop. -/
def tryFormats : List (List FmtTok) → List Char → Option PyDateTime
  | [], _ => none
  | f :: fs, s =>
    match strptime f s with
    | some dt => some dt
    | none => tryFormats fs s

/-- `utils.parse_date_string` (utils.py lines 192-214): `None` for a falsy
(empty) input, else the first format that parses, else `None`. -/
def parse_date_string (dateStr : String) : Option PyDateTime :=
  if dateStr.isEmpty then none
  else tryFormats pyDateFormats (pyStrip dateStr.data)

/-- Modelled from the spec's words (for the refinement comparison in C1,
not from the code): fetch up to `limit * 2` entries, score them, keep the
positive-score entries, sort by score descending (stable), and only then
truncate to `limit`. -/
def specSearchCategory (entries : List FeedEntry) (query : String)
    (limit : Nat) : List SearchResult :=
  (sortKeyDesc relevanceKey
    ((entries.take (limit * 2)).filterMap fun e =>
      let sc := scoreEntry (lowerChars query) e
      if 0 < sc then some (entryToResult e sc) else none)).take limit

/-! ### Concrete fixtures used to instantiate the theorems below -/

/-- A feed entry whose summary (but not title) contains the query `"q"`. -/
def sampleEntrySummaryOnly : FeedEntry := ⟨"alpha", "q here", "u1", "", none⟩

/-- A feed entry whose title and summary both contain the query `"q"`. -/
def sampleEntryBoth : FeedEntry := ⟨"q title", "q also", "u2", "", none⟩

/-- A fetch environment: the AWS News Blog feed has the two sample entries,
every other URL fails. -/
def sampleFetch : Fetch := fun u =>
  if u = "https://aws.amazon.com/blogs/aws/feed/" then
    .ok [sampleEntrySummaryOnly, sampleEntryBoth]
  else .error ()

/-- A fetch environment where every feed succeeds with no entries. -/
def emptyFetch : Fetch := fun _ => .ok []

/-- The registry entry for the `aws` category. -/
def awsInfo : CategoryInfo :=
  ⟨"aws", "AWS News Blog", "https://aws.amazon.com/blogs/aws/",
   "https://aws.amazon.com/blogs/aws/feed/"⟩

/-- A fetch environment where the `aws` feed fails and every other feed
succeeds with one entry matching the query `"q"` in its title. -/
def failAwsFetch : Fetch := fun u =>
  if u = "https://aws.amazon.com/blogs/aws/feed/" then .error ()
  else .ok [sampleEntryBoth]

/-- A fetch environment where every feed yields one dated and one undated
entry. -/
def datedFetch : Fetch := fun _ =>
  .ok [⟨"old", "s", "u", "a", some 5⟩, ⟨"nodate", "s", "u", "a", none⟩]

/-- Metadata with no title key, as when `extract_blog_metadata` finds
neither an `h1` nor a `title` element. -/
def noTitleMeta : BlogMetadata := ⟨none, some "Ann", none, none⟩

/-! ### Helper lemmas about the stable descending sort -/

theorem mem_insertKeyDesc {k : α → Nat} {x y : α} {l : List α} :
    y ∈ insertKeyDesc k x l ↔ y = x ∨ y ∈ l := by
  induction l with
  | nil => simp [insertKeyDesc]
  | cons z zs ih =>
    by_cases h : k z ≤ k x
    · simp [insertKeyDesc, h]
    · simp only [insertKeyDesc, if_neg h, List.mem_cons, ih]
      tauto

theorem length_insertKeyDesc (k : α → Nat) (x : α) (l : List α) :
    (insertKeyDesc k x l).length = l.length + 1 := by
  induction l with
  | nil => rfl
  | cons z zs ih =>
    by_cases h : k z ≤ k x <;> simp [insertKeyDesc, h, ih]

theorem length_sortKeyDesc (k : α → Nat) (l : List α) :
    (sortKeyDesc k l).length = l.length := by
  induction l with
  | nil => rfl
  | cons x xs ih => simp [sortKeyDesc, length_insertKeyDesc, ih]

theorem mem_sortKeyDesc {k : α → Nat} {y : α} {l : List α} :
    y ∈ sortKeyDesc k l ↔ y ∈ l := by
  induction l with
  | nil => simp [sortKeyDesc]
  | cons x xs ih => simp [sortKeyDesc, mem_insertKeyDesc, ih]

theorem sorted_insertKeyDesc {k : α → Nat} {x : α} {l : List α}
    (h : l.Pairwise (fun a b => k b ≤ k a)) :
    (insertKeyDesc k x l).Pairwise (fun a b => k b ≤ k a) := by
  induction l with
  | nil => simp [insertKeyDesc]
  | cons z zs ih =>
    rcases List.pairwise_cons.1 h with ⟨hz, hzs⟩
    by_cases hle : k z ≤ k x
    · simp only [insertKeyDesc, if_pos hle]
      refine List.pairwise_cons.2 ⟨?_, h⟩
      intro b hb
      rcases List.mem_cons.1 hb with rfl | hb
      · exact hle
      · exact le_trans (hz b hb) hle
    · simp only [insertKeyDesc, if_neg hle]
      refine List.pairwise_cons.2 ⟨?_, ih hzs⟩
      intro b hb
      rcases mem_insertKeyDesc.1 hb with rfl | hb
      · exact le_of_not_le hle
      · exact hz b hb

theorem sorted_sortKeyDesc (k : α → Nat) (l : List α) :
    (sortKeyDesc k l).Pairwise (fun a b => k b ≤ k a) := by
  induction l with
  | nil => simp [sortKeyDesc]
  | cons x xs ih => exact sorted_insertKeyDesc ih

/-- Entries of the fan-out whose contribution is empty can be dropped. -/
theorem flatten_map_eq_filter {l : List β} {f : β → List γ} {p : β → Bool}
    (h : ∀ x ∈ l, p x = false → f x = []) :
    (l.map f).flatten = ((l.filter p).map f).flatten := by
  induction l with
  | nil => rfl
  | cons x xs ih =>
    have ihx := ih fun y hy => h y (List.mem_cons_of_mem _ hy)
    cases hp : p x with
    | true => simp [List.filter_cons, hp, ihx]
    | false =>
      simp [List.filter_cons, hp, ihx, h x (List.mem_cons_self x xs) hp]

/-! ### Helper lemmas about pagination chunks -/

theorem chunkBodiesAux_nil (maxLength fuel : Nat) :
    chunkBodiesAux maxLength fuel [] = [] := by
  cases fuel <;> rfl

theorem chunkBodiesAux_flatten {maxLength : Nat} (hm : 0 < maxLength) :
    ∀ (fuel : Nat) (text : List Char), text.length ≤ fuel →
      (chunkBodiesAux maxLength fuel text).flatten = text := by
  intro fuel
  induction fuel with
  | zero =>
    intro text h
    have : text = [] := List.length_eq_zero.1 (Nat.le_zero.1 h)
    subst this
    rfl
  | succ n ih =>
    intro text h
    cases text with
    | nil => rfl
    | cons c rest =>
      simp only [chunkBodiesAux, List.flatten_cons]
      rw [ih ((c :: rest).drop maxLength)
            (by rw [List.length_drop]; omega),
          List.take_append_drop]

theorem chunkBodiesAux_fuel {maxLength : Nat} (hm : 0 < maxLength) :
    ∀ (fuel fuel' : Nat) (text : List Char), text.length ≤ fuel →
      text.length ≤ fuel' →
      chunkBodiesAux maxLength fuel text = chunkBodiesAux maxLength fuel' text := by
  intro fuel
  induction fuel with
  | zero =>
    intro fuel' text h _
    have : text = [] := List.length_eq_zero.1 (Nat.le_zero.1 h)
    subst this
    rw [chunkBodiesAux_nil, chunkBodiesAux_nil]
  | succ n ih =>
    intro fuel' text h h'
    cases text with
    | nil => rw [chunkBodiesAux_nil, chunkBodiesAux_nil]
    | cons c rest =>
      cases fuel' with
      | zero => simp at h'
      | succ n' =>
        simp only [chunkBodiesAux]
        rw [ih n' ((c :: rest).drop maxLength)
              (by rw [List.length_drop]; omega)
              (by rw [List.length_drop]; omega)]

theorem chunkBodies_cons {maxLength : Nat} (hm : 0 < maxLength)
    {text : List Char} (hne : text ≠ []) :
    chunkBodies maxLength text =
      text.take maxLength :: chunkBodies maxLength (text.drop maxLength) := by
  cases text with
  | nil => exact absurd rfl hne
  | cons c rest =>
    simp only [chunkBodies, List.length_cons, chunkBodiesAux]
    rw [chunkBodiesAux_fuel hm rest.length ((c :: rest).drop maxLength).length
          ((c :: rest).drop maxLength)
          (by rw [List.length_drop]; simp only [List.length_cons]; omega) le_rfl]

theorem chunkBodies_get? {maxLength : Nat} (hm : 0 < maxLength) :
    ∀ (i : Nat) (text : List Char),
      (chunkBodies maxLength text).get? i =
        if i * maxLength < text.length then
          some ((text.drop (i * maxLength)).take maxLength)
        else none := by
  intro i
  induction i with
  | zero =>
    intro text
    cases text with
    | nil => rfl
    | cons c rest =>
      rw [chunkBodies_cons hm (by simp)]
      simp
  | succ j ih =>
    intro text
    cases text with
    | nil => simp [chunkBodies, chunkBodiesAux]
    | cons c rest =>
      rw [chunkBodies_cons hm (by simp)]
      simp only [List.get?_cons_succ, ih ((c :: rest).drop maxLength),
        List.drop_drop, List.length_drop, Nat.succ_mul]
      by_cases hcond : j * maxLength < (c :: rest).length - maxLength
      · rw [if_pos hcond, if_pos (by omega), Nat.add_comm]
      · rw [if_neg hcond, if_neg (by omega)]

theorem paginate_of_lt {full : List Char} {maxLength start : Nat}
    (h : start < full.length) :
    paginate full maxLength start =
      (full.drop start).take maxLength ++
        (if start + maxLength < full.length then markerOf (start + maxLength)
         else []) := by
  unfold paginate
  rw [if_neg (not_le.2 h)]
  by_cases h2 : start + maxLength < full.length
  · simp [h2]
  · simp [h2]

/-! ### Claim theorems -/

/-- C2, counterexample: in the fan-out of `search_blog_posts` with
`limit = 10`, the per-category limit actually passed is not
`limit / count + 1` where `count` is the number of selected categories (5):
the code divides by the full registry size instead. -/
theorem claim_C2_counterexample :
    ¬ ∀ p ∈ searchFanoutQueries 10,
        p.2 = 10 / (searchFanoutQueries 10).length + 1 := by decide

/-- C2, amended: in every multi-category fan-out the selected categories are
the first 5 registry keys in declaration order; `get_recent_posts` queries
each with per-category limit `limit / 5 + 1`, but `search_blog_posts`
queries each with `limit / (total number of registry categories) + 1`
(the divisor is the full registry size, 11, not the selected count 5). -/
theorem claim_C2_amended (limit : Nat) :
    (∀ p ∈ searchFanoutQueries limit,
      p.2 = limit / AWS_BLOG_CATEGORIES.length + 1) ∧
    (∀ p ∈ recentFanoutQueries limit, p.2 = limit / 5 + 1) ∧
    (searchFanoutQueries limit).map Prod.fst = categoryKeys.take 5 ∧
    (recentFanoutQueries limit).map Prod.fst = categoryKeys.take 5 := by
  refine ⟨?_, ?_, ?_, ?_⟩
  · intro p hp
    simp only [searchFanoutQueries, List.mem_map] at hp
    obtain ⟨c, hc, rfl⟩ := hp
    simp [searchPerCategoryLimit, searchCategoriesToSearch, categoryKeys]
  · intro p hp
    simp only [recentFanoutQueries, List.mem_map] at hp
    obtain ⟨info, hi, rfl⟩ := hp
    rfl
  · simp [searchFanoutQueries, searchCategoriesToSearch, List.map_map,
      Function.comp_def]
  · simp [recentFanoutQueries, categoryKeys, List.map_map, List.map_take,
      Function.comp_def]

/-- C2, witness: at `limit = 10` the theorem applies to the concrete queries
`("aws", 1)` (search fan-out) and `("aws", 3)` (recent-posts fan-out). -/
theorem claim_C2_amended_witness :
    (("aws", 1) ∈ searchFanoutQueries 10 ∧
      (1 : Nat) = 10 / AWS_BLOG_CATEGORIES.length + 1) ∧
    (("aws", 3) ∈ recentFanoutQueries 10 ∧ (3 : Nat) = 10 / 5 + 1) :=
  ⟨⟨by decide, (claim_C2_amended 10).1 ("aws", 1) (by decide)⟩,
   ⟨by decide, (claim_C2_amended 10).2.1 ("aws", 3) (by decide)⟩⟩

/-- C3, counterexample: `get_rss_feed` on an unknown category returns
exactly the same value (`[]`) as a successful call on a known category whose
feed is empty, so the failure is not distinguishable from a successful empty
result by the caller. -/
theorem claim_C3_counterexample :
    getRssFeed emptyFetch "nonexistent" 20 = getRssFeed emptyFetch "aws" 20 ∧
    getRssFeedE emptyFetch "aws" 20 = .ok [] :=
  ⟨by decide, rfl⟩

/-- C3, amended: for an unknown category key, `get_rss_feed` raises a
descriptive `ValueError` internally (naming the key), attempts no feed
retrieval (the result is independent of the fetch environment) and does not
retry — but its own exception handler catches the error and the caller
receives the empty list, indistinguishable from an empty success. -/
theorem claim_C3_amended (fetch fetch' : Fetch) (c : String) (limit : Nat)
    (h : findCategory c = none) :
    getRssFeed fetch c limit = [] ∧
    getRssFeed fetch c limit = getRssFeed fetch' c limit ∧
    getRssFeedE fetch c limit = .error (unknownCategoryMessage c) := by
  simp [getRssFeed, getRssFeedE, h]

/-- C3, witness: the category `"nonexistent"` is not in the registry and the
theorem applies to it. -/
theorem claim_C3_witness :
    findCategory "nonexistent" = none ∧
    getRssFeed emptyFetch "nonexistent" 20 = [] :=
  ⟨by decide,
   (claim_C3_amended emptyFetch sampleFetch "nonexistent" 20 (by decide)).1⟩

/-- C5: for every nonempty text and `max_length > 0`, the chunk bodies at
offsets `0, max_length, 2*max_length, ...` (the offsets obtained by starting
at 0 and following each chunk's embedded next `start_index`) concatenate
back to the whole text; chunk `i` exists iff its window starts inside the
text; `read_blog_post` returns exactly that body with a continuation marker
appended iff the window ends strictly before the end of the text; and the
marker literally contains the decimal next `start_index`. -/
theorem claim_C5_pagination (full : List Char) (maxLength : Nat)
    (hm : 0 < maxLength) (_hne : full ≠ []) :
    (chunkBodies maxLength full).flatten = full ∧
    (∀ i, ((chunkBodies maxLength full).get? i).isSome = true ↔
      i * maxLength < full.length) ∧
    (∀ i body, (chunkBodies maxLength full).get? i = some body →
      body = (full.drop (i * maxLength)).take maxLength ∧
      paginate full maxLength (i * maxLength) =
        body ++ (if i * maxLength + maxLength < full.length
                 then markerOf (i * maxLength + maxLength) else [])) ∧
    (∀ n, markerOf n = markerPre ++ (Nat.repr n).data ++ markerPost) := by
  refine ⟨chunkBodiesAux_flatten hm full.length full le_rfl, ?_, ?_,
    fun n => rfl⟩
  · intro i
    rw [chunkBodies_get? hm]
    by_cases h : i * maxLength < full.length <;> simp [h]
  · intro i body hb
    rw [chunkBodies_get? hm] at hb
    by_cases h : i * maxLength < full.length
    · rw [if_pos h] at hb
      injection hb with hb
      refine ⟨hb.symm, ?_⟩
      rw [paginate_of_lt h, hb]
    · rw [if_neg h] at hb
      exact absurd hb (by simp)

/-- C5, witness: the theorem applies to the text `"abcdefgh"` with
`max_length = 3`, whose chunk bodies concatenate back to the text. -/
theorem claim_C5_witness :
    (0 < 3 ∧ "abcdefgh".data ≠ []) ∧
    (chunkBodies 3 "abcdefgh".data).flatten = "abcdefgh".data :=
  ⟨⟨by decide, by decide⟩,
   (claim_C5_pagination "abcdefgh".data 3 (by decide) (by decide)).1⟩

/-- C8: `parse_date_string` yields a defined timestamp on the four sample
inputs, yields absent on `"invalid-date"` and on the empty string, and for
every input yields either a timestamp or absent (it is a total function —
the model of a Python function that never raises). -/
theorem claim_C8_parse_date :
    (parse_date_string "2025-10-28T16:59:17-07:00").isSome = true ∧
    (parse_date_string "October 28, 2025").isSome = true ∧
    (parse_date_string "Oct 28, 2025").isSome = true ∧
    (parse_date_string "2025-10-28").isSome = true ∧
    parse_date_string "invalid-date" = none ∧
    parse_date_string "" = none ∧
    ∀ s : String, (parse_date_string s).isSome = true ∨
      parse_date_string s = none := by
  refine ⟨by decide, by decide, by decide, by decide, by decide, by decide, ?_⟩
  intro s
  cases h : parse_date_string s with
  | none => exact Or.inr rfl
  | some dt => exact Or.inl rfl

/-- C10: the content assembled by `read_blog_post` always begins with a
title line; when metadata extraction yields no title that line is the
literal `# AWS Blog Post`; and the `**URL:**` line followed by the `---`
separator is always present, whatever optional fields were extracted. -/
theorem claim_C10_header (meta : BlogMetadata) (url : String)
    (markdown : List Char) :
    (∃ rest, fullContent meta url markdown =
      ("# ".data ++ (meta.title.getD "AWS Blog Post").data ++ "\n\n".data) ++
        rest) ∧
    (meta.title = none → ∃ rest, fullContent meta url markdown =
      "# AWS Blog Post\n\n".data ++ rest) ∧
    (∃ pre post, fullContent meta url markdown =
      pre ++ ("**URL:** ".data ++ url.data ++ "\n\n---\n\n".data) ++ post) := by
  have heq : fullContent meta url markdown =
      titleLine meta ++ (optionalHeaderLines meta ++ urlBlock url ++ markdown) := by
    simp [fullContent, metadataHeader, List.append_assoc]
  refine ⟨⟨optionalHeaderLines meta ++ urlBlock url ++ markdown, ?_⟩, ?_, ?_⟩
  · rw [heq]
    simp [titleLine, List.append_assoc]
  · intro h
    refine ⟨optionalHeaderLines meta ++ urlBlock url ++ markdown, ?_⟩
    rw [heq]
    have ht : titleLine meta = "# AWS Blog Post\n\n".data := by
      rw [titleLine, h]
      decide
    rw [ht]
  · refine ⟨titleLine meta ++ optionalHeaderLines meta, markdown, ?_⟩
    simp [fullContent, metadataHeader, urlBlock, List.append_assoc]

/-- C10, witness: with no extracted title the assembled content starts with
the literal default title line. -/
theorem claim_C10_witness :
    ∃ rest, fullContent noTitleMeta "u" [] =
      "# AWS Blog Post\n\n".data ++ rest :=
  (claim_C10_header noTitleMeta "u" []).2.1 rfl

/-- C1, counterexample: with the sample feed (a summary-only match before a
title-and-summary match) and `limit = 1`, `search_blog_posts` on the known
category `aws` returns the earlier, lower-scoring entry, while the spec's
pipeline (sort all positives before truncating) returns the higher-scoring
one. -/
theorem claim_C1_counterexample :
    searchBlogPosts sampleFetch "q" (some "aws") 1 =
      [entryToResult sampleEntrySummaryOnly 1] ∧
    specSearchCategory [sampleEntrySummaryOnly, sampleEntryBoth] "q" 1 =
      [entryToResult sampleEntryBoth 3] ∧
    sampleFetch "https://aws.amazon.com/blogs/aws/feed/" =
      .ok [sampleEntrySummaryOnly, sampleEntryBoth] ∧
    entryToResult sampleEntrySummaryOnly 1 ≠ entryToResult sampleEntryBoth 3 :=
  ⟨by decide, by decide, rfl, by decide⟩

/-- C1, amended: for a known category, the returned sequence equals: take the
first `limit * 2` feed entries, score them, keep the positive-score ones,
truncate to `limit` **in feed order**, and then sort that truncated list by
score descending (stable). When more than `limit` of the scanned entries
score positively, the first `limit` in feed order — not the `limit`
highest-scoring — are the ones returned. -/
theorem claim_C1_amended (fetch : Fetch) (query : String) (limit : Nat)
    (c : String) (info : CategoryInfo) (entries : List FeedEntry)
    (hc : findCategory c = some info) (hf : fetch info.rss = .ok entries) :
    searchBlogPosts fetch query (some c) limit =
      sortKeyDesc relevanceKey
        (((entries.take (limit * 2)).filterMap fun e =>
            let sc := scoreEntry (lowerChars query) e
            if 0 < sc then some (entryToResult e sc) else none).take limit) := by
  have h1 : searchBlogPosts fetch query (some c) limit =
      (sortKeyDesc relevanceKey (searchRssFeed fetch info.rss query limit)).take
        limit := by
    unfold searchBlogPosts
    rw [show (some c).bind findCategory = some info from hc]
  have h2 : searchRssFeed fetch info.rss query limit =
      searchEntries entries query limit := by
    unfold searchRssFeed
    rw [hf]
  rw [h1, h2]
  exact List.take_of_length_le
    (by rw [length_sortKeyDesc]; exact List.length_take_le _ _)

/-- C1, witness: the amended theorem applies to the sample feed on the known
category `aws` with `limit = 1`. -/
theorem claim_C1_amended_witness :
    findCategory "aws" = some awsInfo ∧
    sampleFetch awsInfo.rss = .ok [sampleEntrySummaryOnly, sampleEntryBoth] ∧
    searchBlogPosts sampleFetch "q" (some "aws") 1 =
      sortKeyDesc relevanceKey
        ((([sampleEntrySummaryOnly, sampleEntryBoth].take (1 * 2)).filterMap
            fun e =>
              let sc := scoreEntry (lowerChars "q") e
              if 0 < sc then some (entryToResult e sc) else none).take 1) :=
  ⟨by decide, rfl,
   claim_C1_amended sampleFetch "q" 1 "aws" awsInfo _ (by decide) rfl⟩

/-- C4: an entry whose lowercased title contains the lowercased query but
whose summary does not scores exactly 2; summary-only scores exactly 1; both
score exactly 3; and every result `_search_rss_feed` materializes originates
from a scanned entry with a positive score, so an entry matching neither is
excluded from the results entirely. -/
theorem claim_C4_scoring (query : String) (e : FeedEntry)
    (entries : List FeedEntry) (limit : Nat) :
    (containsSub (lowerChars query) (lowerChars e.title) = true →
      containsSub (lowerChars query) (lowerChars e.summary) = false →
      scoreEntry (lowerChars query) e = 2) ∧
    (containsSub (lowerChars query) (lowerChars e.title) = false →
      containsSub (lowerChars query) (lowerChars e.summary) = true →
      scoreEntry (lowerChars query) e = 1) ∧
    (containsSub (lowerChars query) (lowerChars e.title) = true →
      containsSub (lowerChars query) (lowerChars e.summary) = true →
      scoreEntry (lowerChars query) e = 3) ∧
    (∀ r ∈ searchEntries entries query limit,
      ∃ e', e' ∈ entries.take (limit * 2) ∧
        0 < scoreEntry (lowerChars query) e' ∧
        r = entryToResult e' (scoreEntry (lowerChars query) e')) := by
  refine ⟨?_, ?_, ?_, ?_⟩
  · intro h1 h2
    simp [scoreEntry, h1, h2]
  · intro h1 h2
    simp [scoreEntry, h1, h2]
  · intro h1 h2
    simp [scoreEntry, h1, h2]
  · intro r hr
    simp only [searchEntries] at hr
    obtain ⟨e', he', hfe⟩ := List.mem_filterMap.1 (List.mem_of_mem_take hr)
    by_cases hsc : 0 < scoreEntry (lowerChars query) e'
    · rw [if_pos hsc] at hfe
      injection hfe with hfe
      exact ⟨e', he', hsc, hfe.symm⟩
    · rw [if_neg hsc] at hfe
      exact absurd hfe (by simp)

/-- C4, witness: the theorem applies to the query `"q"` and the sample entry
matching in both title and summary, whose score is exactly 3. -/
theorem claim_C4_witness :
    containsSub (lowerChars "q") (lowerChars sampleEntryBoth.title) = true ∧
    containsSub (lowerChars "q") (lowerChars sampleEntryBoth.summary) = true ∧
    scoreEntry (lowerChars "q") sampleEntryBoth = 3 :=
  ⟨by decide, by decide,
   (claim_C4_scoring "q" sampleEntryBoth [] 0).2.2.1 (by decide) (by decide)⟩

theorem mem_searchEntries_relevance {entries : List FeedEntry} {query : String}
    {limit : Nat} {r : SearchResult} (hr : r ∈ searchEntries entries query limit) :
    r.relevance_score = some 1 ∨ r.relevance_score = some 2 ∨
      r.relevance_score = some 3 := by
  simp only [searchEntries] at hr
  obtain ⟨e, he, hfe⟩ := List.mem_filterMap.1 (List.mem_of_mem_take hr)
  by_cases hsc : 0 < scoreEntry (lowerChars query) e
  · rw [if_pos hsc] at hfe
    injection hfe with hfe
    subst hfe
    have := hsc
    unfold scoreEntry at this ⊢
    by_cases h1 : containsSub (lowerChars query) (lowerChars e.title) <;>
      by_cases h2 : containsSub (lowerChars query) (lowerChars e.summary) <;>
      simp [entryToResult, scoreEntry, h1, h2] at this ⊢
  · rw [if_neg hsc] at hfe
    exact absurd hfe (by simp)

theorem mem_searchRssFeed_relevance {fetch : Fetch} {url query : String}
    {limit : Nat} {r : SearchResult}
    (hr : r ∈ searchRssFeed fetch url query limit) :
    r.relevance_score = some 1 ∨ r.relevance_score = some 2 ∨
      r.relevance_score = some 3 := by
  unfold searchRssFeed at hr
  cases hfe : fetch url with
  | error u =>
    rw [hfe] at hr
    simp at hr
  | ok entries =>
    rw [hfe] at hr
    exact mem_searchEntries_relevance hr

theorem mem_searchFanout_relevance {fetch : Fetch} {query : String}
    {limit : Nat} {r : SearchResult} (hr : r ∈ searchFanout fetch query limit) :
    r.relevance_score = some 1 ∨ r.relevance_score = some 2 ∨
      r.relevance_score = some 3 := by
  unfold searchFanout at hr
  obtain ⟨l', hl', hrl⟩ := List.mem_flatten.1 hr
  obtain ⟨cq, hcq, rfl⟩ := List.mem_map.1 hl'
  unfold searchCategoryQuery at hrl
  cases hfc : findCategory cq.1 with
  | none =>
    rw [hfc] at hrl
    simp at hrl
  | some info =>
    rw [hfc] at hrl
    exact mem_searchRssFeed_relevance hrl

/-- C9: every search result returned by `search_blog_posts` — for every
fetch environment, query, category filter and limit — carries a relevance
score that is present and equal to 1, 2 or 3 (never absent, never 0, never
above 3). -/
theorem claim_C9_relevance (fetch : Fetch) (query : String)
    (category : Option String) (limit : Nat) :
    ∀ r ∈ searchBlogPosts fetch query category limit,
      r.relevance_score = some 1 ∨ r.relevance_score = some 2 ∨
        r.relevance_score = some 3 := by
  intro r hr
  unfold searchBlogPosts at hr
  cases hcb : category.bind findCategory with
  | none =>
    rw [hcb] at hr
    exact mem_searchFanout_relevance
      (mem_sortKeyDesc.1 (List.mem_of_mem_take hr))
  | some info =>
    rw [hcb] at hr
    exact mem_searchRssFeed_relevance
      (mem_sortKeyDesc.1 (List.mem_of_mem_take hr))

/-- C9, witness: the theorem applies to the concrete result appearing in the
sample search. -/
theorem claim_C9_witness :
    entryToResult sampleEntrySummaryOnly 1 ∈
      searchBlogPosts sampleFetch "q" (some "aws") 1 ∧
    ((entryToResult sampleEntrySummaryOnly 1).relevance_score = some 1 ∨
      (entryToResult sampleEntrySummaryOnly 1).relevance_score = some 2 ∨
      (entryToResult sampleEntrySummaryOnly 1).relevance_score = some 3) :=
  ⟨by decide, claim_C9_relevance sampleFetch "q" (some "aws") 1 _ (by decide)⟩

/-- C6: when a selected category's feed fails, both fan-outs behave exactly
as the same pipeline run over the remaining (succeeding) categories' queries
only: the failing source is skipped, and the results produced from the
succeeding categories are the ones the merge-sort-truncate acts on — one
source's failure never aborts or empties the aggregate. -/
theorem claim_C6_skip_failure (fetch : Fetch) (query : String) (limit : Nat)
    (c : String) (info : CategoryInfo)
    (hc : findCategory c = some info) (hfail : fetch info.rss = .error ()) :
    searchBlogPosts fetch query none limit =
      (sortKeyDesc relevanceKey
        (((searchFanoutQueries limit).filter (fun cq => cq.1 != c)).map
          (searchCategoryQuery fetch query)).flatten).take limit ∧
    getRecentPosts fetch none limit =
      (sortKeyDesc publishedKey
        (((recentFanoutQueries limit).filter (fun cq => cq.1 != c)).map
          (recentCategoryQuery fetch)).flatten).take limit := by
  constructor
  · have hstep : searchBlogPosts fetch query none limit =
        (sortKeyDesc relevanceKey (searchFanout fetch query limit)).take limit :=
      rfl
    rw [hstep]
    unfold searchFanout
    have hdrop : ∀ cq ∈ searchFanoutQueries limit, (cq.1 != c) = false →
        searchCategoryQuery fetch query cq = [] := by
      intro cq hcq hfalse
      have hceq : cq.1 = c := by simpa using hfalse
      unfold searchCategoryQuery
      rw [hceq, hc]
      show searchRssFeed fetch info.rss query cq.2 = []
      unfold searchRssFeed
      rw [hfail]
    rw [flatten_map_eq_filter hdrop]
  · have hstep : getRecentPosts fetch none limit =
        (sortKeyDesc publishedKey (recentFanout fetch limit)).take limit := rfl
    rw [hstep]
    unfold recentFanout
    have hdrop : ∀ cq ∈ recentFanoutQueries limit, (cq.1 != c) = false →
        recentCategoryQuery fetch cq = [] := by
      intro cq hcq hfalse
      have hceq : cq.1 = c := by simpa using hfalse
      unfold recentCategoryQuery
      rw [hceq, hc]
      show getPostsFromRss fetch info.rss cq.2 = []
      unfold getPostsFromRss
      rw [hfail]
    rw [flatten_map_eq_filter hdrop]

/-- C6, witness: with the `aws` feed failing and every other feed holding
one matching entry, the search fan-out still returns the four results of
the other categories and the recent-posts fan-out is still nonempty. -/
theorem claim_C6_witness :
    searchBlogPosts failAwsFetch "q" none 10 =
      List.replicate 4 (entryToResult sampleEntryBoth 3) ∧
    getRecentPosts failAwsFetch none 10 ≠ [] := by
  have h := claim_C6_skip_failure failAwsFetch "q" 10 "aws" awsInfo
    (by decide) rfl
  constructor
  · rw [h.1]
    decide
  · rw [h.2]
    decide

theorem mem_recentFanout_pos {fetch : Fetch} {limit : Nat}
    (hpos : ∀ url entries e d, fetch url = .ok entries → e ∈ entries →
      e.published = some d → 0 < d)
    {p : BlogPost} (hp : p ∈ recentFanout fetch limit) :
    ∀ d, p.published_date = some d → 0 < d := by
  intro d hd
  unfold recentFanout at hp
  obtain ⟨l', hl', hpl⟩ := List.mem_flatten.1 hp
  obtain ⟨cq, hcq, rfl⟩ := List.mem_map.1 hl'
  unfold recentCategoryQuery at hpl
  cases hfc : findCategory cq.1 with
  | none =>
    rw [hfc] at hpl
    simp at hpl
  | some info =>
    have hpl' : p ∈ getPostsFromRss fetch info.rss cq.2 := by
      rw [hfc] at hpl
      exact hpl
    unfold getPostsFromRss at hpl'
    cases hfe : fetch info.rss with
    | error u =>
      rw [hfe] at hpl'
      simp at hpl'
    | ok entries =>
      have hpl'' : p ∈ postsFromEntries info.rss entries cq.2 := by
        rw [hfe] at hpl'
        exact hpl'
      unfold postsFromEntries at hpl''
      obtain ⟨e, he, rfl⟩ := List.mem_map.1 hpl''
      exact hpos info.rss entries e d hfe (List.mem_of_mem_take he) hd

/-- C7: for every fetch environment whose entries carry only positive
timestamps (every real `datetime` exceeds the encoding of `datetime.min`),
`get_recent_posts` with no category filter returns posts sorted by published
date descending (absent dates keyed as the minimum), and a post with an
absent published date never precedes one with a known date — once an
undated post appears, every later post is undated too. -/
theorem claim_C7_recent_order (fetch : Fetch) (limit : Nat)
    (hpos : ∀ url entries e d, fetch url = .ok entries → e ∈ entries →
      e.published = some d → 0 < d) :
    List.Pairwise (fun a b => publishedKey b ≤ publishedKey a)
      (getRecentPosts fetch none limit) ∧
    List.Pairwise (fun a b => a.published_date = none → b.published_date = none)
      (getRecentPosts fetch none limit) := by
  have hrfl : getRecentPosts fetch none limit =
      (sortKeyDesc publishedKey (recentFanout fetch limit)).take limit := rfl
  have hsorted : List.Pairwise (fun a b => publishedKey b ≤ publishedKey a)
      (getRecentPosts fetch none limit) := by
    rw [hrfl]
    exact List.Pairwise.sublist (List.take_sublist _ _) (sorted_sortKeyDesc _ _)
  refine ⟨hsorted, ?_⟩
  refine List.Pairwise.imp_of_mem ?_ hsorted
  intro a b ha hb hR hnone
  have hb' : b ∈ recentFanout fetch limit := by
    rw [hrfl] at hb
    exact mem_sortKeyDesc.1 (List.mem_of_mem_take hb)
  cases hpd : b.published_date with
  | none => rfl
  | some d =>
    have h0 : publishedKey a = 0 := by simp [publishedKey, hnone]
    have hb0 : publishedKey b = 0 := Nat.le_zero.1 (h0 ▸ hR)
    have hd0 : d = 0 := by
      simpa [publishedKey, hpd] using hb0
    have := mem_recentFanout_pos hpos hb' d hpd
    omega

/-- C7, witness: the theorem applies to a fetch environment where every feed
yields one post dated 5 and one undated post. -/
theorem claim_C7_witness :
    List.Pairwise (fun a b => publishedKey b ≤ publishedKey a)
      (getRecentPosts datedFetch none 10) ∧
    List.Pairwise (fun a b => a.published_date = none → b.published_date = none)
      (getRecentPosts datedFetch none 10) :=
  claim_C7_recent_order datedFetch 10 (by
    intro url entries e d h1 h2 h3
    injection h1 with h1
    subst h1
    simp at h2
    rcases h2 with rfl | rfl
    · injection h3 with h3
      omega
    · simp at h3)

end AwsBlogs
